import Mathlib

/-!
Shallow embedding of `src/receipt.py` (class `Receipt`).

Modelling conventions:
* The OCR text (`self.file`) is a `String`; the mutable instance state is
  `RState` (the `file` attribute plus the optional `numbers` attribute that
  `get_subtotal` writes).  Methods that read or write `numbers` are state
  passing functions `RState → α × RState`; the other methods only read
  `file` and are given as functions of the text, with `_st` wrappers making
  the absence of state change explicit.
* Python exceptions are modelled with `Except Err` and `Option`:
  `Err.attributeError` is the `AttributeError` raised by
  `re.search(...).group()` when the search returned `None`;
  `Err.valueError` is the `ValueError` raised by `max([])` or `int(...)`.
* String processing is carried out on the character list (`String.data`) by
  structurally recursive functions, so that every definition evaluates
  inside the kernel.
* Regexes are translated to explicit scanners over the character list.
  Character classes are the ASCII readings of Python's `\d`, `\w`, `\s`
  (the receipts are ASCII).  The two `findall` scanners for item
  descriptions and prices implement the left-to-right scan of `re.findall`
  with greedy, PEG-style backtracking, which agrees with `re` on the
  receipt layouts concerned.
-/

deriving instance DecidableEq for Except

/-- ASCII reading of Python's `\w` character class. -/
def pyWordChar (c : Char) : Bool := c.isAlphanum || c == '_'

/-- ASCII reading of Python's `\s` character class. -/
def pySpace (c : Char) : Bool :=
  c == ' ' || c == '\t' || c == '\n' || c == '\r' || c == '\x0b' || c == '\x0c'

/-- The two Python exceptions the class can raise. -/
inductive Err where
  | attributeError
  | valueError
deriving DecidableEq

/-- Mutable state of a `Receipt` object: the immutable OCR text `file` set by
`__init__`, and the `numbers` attribute (`none` while not yet assigned). -/
structure RState where
  file : String
  numbers : Option (List Nat)
deriving DecidableEq

/-- Python's `str.split(sep)` for a one-character separator, on character
lists (auxiliary: `acc` is the reversed current piece). -/
def splitChAux (sep : Char) : List Char → List Char → List (List Char)
  | [], acc => [acc.reverse]
  | c :: rest, acc =>
    if c == sep then acc.reverse :: splitChAux sep rest []
    else splitChAux sep rest (c :: acc)

/-- Python's `str.split(sep)` for a one-character separator. -/
def splitCh (sep : Char) (cs : List Char) : List (List Char) := splitChAux sep cs []

/-- Is `p` a prefix of `cs`? -/
def isPrefixCh : List Char → List Char → Bool
  | [], _ => true
  | _ :: _, [] => false
  | p :: ps, c :: cs => p == c && isPrefixCh ps cs

/-- Python's `str.strip()` (ASCII whitespace). -/
def pyStrip (cs : List Char) : List Char :=
  ((cs.dropWhile pySpace).reverse.dropWhile pySpace).reverse

/-- The part of `cs` before the first occurrence of the (nonempty) substring
`sep`; all of `cs` when `sep` does not occur.  This is `str.split(sep)[0]`. -/
def takeBefore (sep : List Char) : List Char → List Char
  | [] => []
  | c :: rest => if isPrefixCh sep (c :: rest) then [] else c :: takeBefore sep rest

/-- Parse a nonempty all-digits character list as a natural number; this is
`int(x)` for a string `x` that matched `\d+`. -/
def natOfDigits? (cs : List Char) : Option Nat :=
  if cs.isEmpty then none
  else if cs.all Char.isDigit then
    some (cs.foldl (fun n c => 10 * n + (c.toNat - '0'.toNat)) 0)
  else none

/-- Python's `int(...)` on a string: optional surrounding whitespace, an
optional sign, then digits.  `none` models the `ValueError` raised on other
inputs. -/
def pyInt? (s : String) : Option Int :=
  match pyStrip s.data with
  | '-' :: rest => (natOfDigits? rest).map (fun n => -(n : Int))
  | '+' :: rest => (natOfDigits? rest).map (fun n => (n : Int))
  | cs => (natOfDigits? cs).map (fun n => (n : Int))

/-- The lines of the text, as Python's `split('\n')` produces them; in
multiline mode the regex anchors `^`/`$` delimit exactly these lines. -/
def linesOf (t : String) : List String := (splitCh '\n' t.data).map String.mk

/-- `search_pattern`: `re.search(pattern, self.file, re.M).group()`.  The
pattern is embedded as its first-match function; a failed search leaves
`group()` to raise `AttributeError`. -/
def search_pattern (m : String → Option String) (t : String) : Except Err String :=
  match m t with
  | none => Except.error Err.attributeError
  | some s => Except.ok s

/-- `get_all_matches`: `re.findall(pattern, self.file, re.M)`, with the
pattern embedded as its all-matches function. -/
def get_all_matches (m : String → List String) (t : String) : List String := m t

/-- A full line matching `^(\d{2}\/){2}(\d{4})$`. -/
def isDateLine (l : String) : Bool :=
  match l.data with
  | [a, b, s1, c, d, s2, e, f, g, h] =>
    a.isDigit && b.isDigit && s1 == '/' && c.isDigit && d.isDigit && s2 == '/' &&
      e.isDigit && f.isDigit && g.isDigit && h.isDigit
  | _ => false

/-- First match of `^(\d{2}\/){2}(\d{4})$` in multiline mode: the first line
of shape `DD/DD/DDDD`. -/
def dateMatch (t : String) : Option String := (linesOf t).find? isDateLine

/-- `get_date`. -/
def get_date (t : String) : Except Err String := search_pattern dateMatch t

/-- First match of `.*(?=\nVENDEDOR)`.  Since `.` does not cross newlines,
the leftmost match is the whole line immediately preceding the first line
(of index at least 1) that starts with `VENDEDOR`. -/
def addrAux : List String → Option String
  | [] => none
  | [_] => none
  | a :: b :: rest =>
    if isPrefixCh "VENDEDOR".data b.data then some a else addrAux (b :: rest)

/-- The search underlying `get_address`. -/
def addressMatch (t : String) : Option String := addrAux (linesOf t)

/-- `get_address`: the matched line, truncated at the first `TEL:`
(`.split("TEL:")[0]`) and stripped of surrounding whitespace. -/
def get_address (t : String) : Except Err String :=
  (search_pattern addressMatch t).map
    (fun s => String.mk (pyStrip (takeBefore "TEL:".data s.data)))

/-- First match of `(?<=TIQUETE\s).*`: scan left to right for the literal
`TIQUETE` followed by one whitespace character; the match is the rest of
that line. -/
def invScan : List Char → Option String
  | [] => none
  | c :: rest =>
    match c :: rest with
    | 'T' :: 'I' :: 'Q' :: 'U' :: 'E' :: 'T' :: 'E' :: w :: rest2 =>
      if pySpace w then some (String.mk (rest2.takeWhile (fun ch => ch != '\n')))
      else invScan rest
    | _ => invScan rest

/-- The search underlying `get_invoice_number`. -/
def invoiceMatch (t : String) : Option String := invScan t.data

/-- `get_invoice_number`. -/
def get_invoice_number (t : String) : Except Err String := search_pattern invoiceMatch t

/-- All matches of `^\d+$` in multiline mode: the full lines of digits. -/
def digitLineMatches (t : String) : List String :=
  (linesOf t).filter (fun l => (natOfDigits? l.data).isSome)

/-- The list `self.numbers` that `get_subtotal` computes:
`[int(x) for x in self.get_all_matches(r'^\d+$')]`. -/
def numbersOf (t : String) : List Nat :=
  (digitLineMatches t).filterMap (fun l => natOfDigits? l.data)

/-- `get_subtotal`: writes the `numbers` attribute, then returns
`max(self.numbers)`; `none` models the `ValueError` of `max([])`. -/
def get_subtotal_st (r : RState) : Option Nat × RState :=
  let ns := numbersOf r.file
  (ns.max?, { r with numbers := some ns })

/-- Parse one match of `^\d+-$` as its negated amount
(`int(x.replace('-', '')) * -1`): digits followed by a single trailing
dash; `none` when the line is not a match of that pattern. -/
def negValue? (l : String) : Option Int :=
  if l.data.getLast? == some '-' then
    (natOfDigits? l.data.dropLast).map (fun n => -(n : Int))
  else none

/-- `discounts` as computed in `get_total`: the sum of the negated full-line
`\d+-` amounts. -/
def discountsOf (t : String) : Int := ((linesOf t).filterMap negValue?).sum

/-- `get_total`: sums the negated discount lines, calls `get_subtotal`
(which rewrites `numbers`), and keeps `subtotal + discounts` only when that
candidate occurs in `self.numbers`; each `return` re-invokes
`get_subtotal`, exactly as in the source. -/
def get_total_st (r : RState) : Option Int × RState :=
  let discounts := discountsOf r.file
  let p1 := get_subtotal_st r
  match p1.1 with
  | none => (none, p1.2)
  | some s =>
    match p1.2.numbers with
    | none => (none, p1.2)
    | some ns =>
      if ((s : Int) + discounts) ∈ ns.map (fun n => (n : Int)) then
        let p2 := get_subtotal_st p1.2
        (p2.1.map (fun s2 => (s2 : Int) + discounts), p2.2)
      else
        let p2 := get_subtotal_st p1.2
        (p2.1.map (fun s2 => (s2 : Int)), p2.2)

/-- Pure description of `get_total`'s result, used to state that the result
depends only on the text: the candidate `subtotal + discounts` is checked
against exactly the integer list `numbersOf` that `get_subtotal` derives. -/
def totalPure (t : String) : Option Int :=
  match (numbersOf t).max? with
  | none => none
  | some s =>
    if ((s : Int) + discountsOf t) ∈ (numbersOf t).map (fun n => (n : Int)) then
      some ((s : Int) + discountsOf t)
    else some ((s : Int))

/-- One line item of the receipt. -/
structure LineItem where
  sku : Int
  description : String
  total : Int
  taxCode : String
deriving DecidableEq

/-- Match of the first alternative of the descriptions pattern
`\b(\d{13})\s(.*)\b\n` at the head of `cs` (a word boundary before `cs` is
assumed by the caller): exactly thirteen digits, one whitespace character,
then a description ending in a word character, then a newline.  Returns the
two groups and the rest of the input. -/
def matchSkuDesc (cs : List Char) : Option (String × String × List Char) :=
  let ds := cs.takeWhile Char.isDigit
  if ds.length == 13 then
    match cs.drop 13 with
    | [] => none
    | w :: rest =>
      if pySpace w then
        let desc := rest.takeWhile (fun c => c != '\n')
        match desc.getLast? with
        | none => none
        | some lastc =>
          if pyWordChar lastc then
            match rest.drop desc.length with
            | '\n' :: rest2 => some (String.mk ds, String.mk desc, rest2)
            | _ => none
          else none
      else none
  else none

/-- The `findall` scan of
`(?:\b(\d{13})\s(.*)\b\n)|(?:\b(SUBTOTAL)\b\n)?` together with the
group-filtering loop of `get_raw_sku_and_descriptions`: SKU lines become
`(sku, desc)`, literal `SUBTOTAL` lines become `("", "SUBTOTAL")`, and the
empty matches produced by the optional second alternative are dropped.
`atB` records whether a word boundary holds before the current position. -/
def descScan : Nat → List Char → Bool → List (String × String)
  | 0, _, _ => []
  | _, [], _ => []
  | Nat.succ fuel, c :: rest, atB =>
    if atB then
      match matchSkuDesc (c :: rest) with
      | some (sku, desc, rest2) => (sku, desc) :: descScan fuel rest2 true
      | none =>
        if (c :: rest).take 9 == "SUBTOTAL\n".data then
          ("", "SUBTOTAL") :: descScan fuel ((c :: rest).drop 9) true
        else
          descScan fuel rest (!(pyWordChar c))
    else
      descScan fuel rest (!(pyWordChar c))

/-- `get_raw_sku_and_descriptions`. -/
def get_raw_sku_and_descriptions (t : String) : List (String × String) :=
  descScan (t.data.length + 1) t.data true

/-- Test a character predicate at index `i`, false past the end. -/
def testAt (p : Char → Bool) (cs : List Char) (i : Nat) : Bool :=
  match cs[i]? with
  | some c => p c
  | none => false

/-- Length of one greedy match of the unit `\b\d+\s?\w?\b\n` at the head of
`cs` (word boundary before `cs` assumed).  The alternatives are tried in
the regex backtracking order: with both optional characters, with only the
word character, with neither; `\s?\w?\b\n` with only the whitespace
character can never reach the boundary. -/
def unitA? (cs : List Char) : Option Nat :=
  let d := (cs.takeWhile Char.isDigit).length
  if d == 0 then none
  else if testAt pySpace cs d && testAt pyWordChar cs (d + 1) &&
      testAt (fun c => c == '\n') cs (d + 2) then some (d + 3)
  else if testAt pyWordChar cs d && testAt (fun c => c == '\n') cs (d + 1) then some (d + 2)
  else if testAt (fun c => c == '\n') cs d then some (d + 1)
  else none

/-- Length of one match of the unit `\b[0-9]{3,}\s\w\b\n` at the head of
`cs`: at least three digits, whitespace, one word character, newline. -/
def unitB? (cs : List Char) : Option Nat :=
  let d := (cs.takeWhile Char.isDigit).length
  if d < 3 then none
  else if testAt pySpace cs d && testAt pyWordChar cs (d + 1) &&
      testAt (fun c => c == '\n') cs (d + 2) then some (d + 3)
  else none

/-- Cumulative lengths after 1, 2, ... greedy repetitions of `unitA?`. -/
def chainA : Nat → List Char → List Nat
  | 0, _ => []
  | Nat.succ fuel, cs =>
    match unitA? cs with
    | none => []
    | some n => n :: (chainA fuel (cs.drop n)).map (fun m => m + n)

/-- Cumulative lengths after 1, 2, ... greedy repetitions of `unitB?`. -/
def chainB : Nat → List Char → List Nat
  | 0, _ => []
  | Nat.succ fuel, cs =>
    match unitB? cs with
    | none => []
    | some n => n :: (chainB fuel (cs.drop n)).map (fun m => m + n)

/-- Length of a match at the head of `cs` of the full prices pattern
`(?:\b\d+\s?\w?\b\n)+(?:\b[0-9]{3,}\s\w\b\n)+(?:\b\d+\s?\w?\b\n)+`:
the first `+` is greedy and gives iterations back one at a time, then the
second likewise, then the third takes everything it can. -/
def tryBlock (fuel : Nat) (cs : List Char) : Option Nat :=
  (chainA fuel cs).reverse.findSome? (fun nx =>
    (chainB fuel (cs.drop nx)).reverse.findSome? (fun ny =>
      match (chainA fuel (cs.drop (nx + ny))).getLast? with
      | some nz => some (nx + (ny + nz))
      | none => none))

/-- The `findall` scan for the prices pattern: at each position with a word
boundary and a digit, try a whole block; on success record the matched text
and continue after it. -/
def priceScan : Nat → List Char → Bool → List String
  | 0, _, _ => []
  | _, [], _ => []
  | Nat.succ fuel, c :: rest, atB =>
    if atB && c.isDigit then
      match tryBlock (c :: rest).length (c :: rest) with
      | some n => String.mk ((c :: rest).take n) :: priceScan fuel ((c :: rest).drop n) true
      | none => priceScan fuel rest (!(pyWordChar c))
    else
      priceScan fuel rest (!(pyWordChar c))

/-- The raw block matches of `get_raw_prices`, before splitting. -/
def rawPriceBlocks (t : String) : List String :=
  priceScan (t.data.length + 1) t.data true

/-- Splitting of one piece of a block, as in the inner loop of
`get_raw_prices`: skip `''` and `' '`; a piece containing a space is split
on spaces into amount and tax code; a spaceless piece gets an empty tax
code. -/
def splitPricePiece (s : String) : Option (String × String) :=
  if s.data == [] || s.data == [' '] then none
  else if s.data.any (fun c => c == ' ') then
    let parts := (splitCh ' ' s.data).map String.mk
    some (parts.headD "", (parts.drop 1).headD "")
  else some (s, "")

/-- `get_raw_prices`. -/
def get_raw_prices (t : String) : List (String × String) :=
  ((rawPriceBlocks t).map (fun b => (splitCh '\n' b.data).filterMap
    (fun p => splitPricePiece (String.mk p)))).flatten

/-- The merge loop of `get_items_group`: for indices below the shorter
length, the description pair grows into a four-field row by appending the
price pair's fields; later description rows keep their two fields. -/
def mergeRows : List (String × String) → List (String × String) → List (List String)
  | [], _ => []
  | d :: ds, [] => [d.1, d.2] :: mergeRows ds []
  | d :: ds, p :: ps => [d.1, d.2, p.1, p.2] :: mergeRows ds ps

/-- The filter of `get_items_group`: exactly four fields and the
description is not the literal `SUBTOTAL`. -/
def itemRowKeep (x : List String) : Bool :=
  (x.length == 4) && (x.getD 1 "" != "SUBTOTAL")

/-- Build one `LineItem` from a kept row, coercing `sku` and `total` with
`int(...)`; a coercion failure is the propagated `ValueError`. -/
def coerceRow (x : List String) : Except Err LineItem :=
  match pyInt? (x.getD 0 ""), pyInt? (x.getD 2 "") with
  | some sku, some tot => Except.ok ⟨sku, x.getD 1 "", tot, x.getD 3 ""⟩
  | _, _ => Except.error Err.valueError

/-- `get_items_group`, as a function of the two raw token lists. -/
def get_items_group_lists (descs prices : List (String × String)) : Except Err (List LineItem) :=
  ((mergeRows descs prices).filter itemRowKeep).mapM coerceRow

/-- `get_items_group` on the receipt text. -/
def get_items_group (t : String) : Except Err (List LineItem) :=
  get_items_group_lists (get_raw_sku_and_descriptions t) (get_raw_prices t)

/-- One row of the positional zip, spec side. -/
def rowOfPair (dp : (String × String) × (String × String)) : List String :=
  [dp.1.1, dp.1.2, dp.2.1, dp.2.2]

/-- The specification's formulation of `buildLineItems`: zip the two lists
positionally up to the shorter length, drop rows whose description is the
literal `SUBTOTAL`, coerce `sku` and `total`. -/
def buildLineItemsSpec (descs prices : List (String × String)) : Except Err (List LineItem) :=
  (((descs.zip prices).map rowOfPair).filter (fun x => x.getD 1 "" != "SUBTOTAL")).mapM coerceRow

/-- The `ReceiptRecord` that `get_receipt_dictionary` assembles. -/
structure ReceiptDict where
  date : String
  storeAddress : String
  invoiceNumber : String
  subtotal : Nat
  total : Int
  lineItems : List LineItem
deriving DecidableEq

/-- `get_receipt_dictionary`: the dictionary literal evaluates its values in
source order, so the first failing extractor aborts the whole record. -/
def get_receipt_dictionary_st (r : RState) : Except Err ReceiptDict × RState :=
  match get_date r.file with
  | Except.error e => (Except.error e, r)
  | Except.ok d =>
    match get_address r.file with
    | Except.error e => (Except.error e, r)
    | Except.ok a =>
      match get_invoice_number r.file with
      | Except.error e => (Except.error e, r)
      | Except.ok inv =>
        let p1 := get_subtotal_st r
        match p1.1 with
        | none => (Except.error Err.valueError, p1.2)
        | some s =>
          let p2 := get_total_st p1.2
          match p2.1 with
          | none => (Except.error Err.valueError, p2.2)
          | some tot =>
            match get_items_group p2.2.file with
            | Except.error e => (Except.error e, p2.2)
            | Except.ok items => (Except.ok ⟨d, a, inv, s, tot, items⟩, p2.2)

/-- Pure description of `get_receipt_dictionary`'s resulting value. -/
def dictPure (t : String) : Except Err ReceiptDict :=
  match get_date t with
  | Except.error e => Except.error e
  | Except.ok d =>
    match get_address t with
    | Except.error e => Except.error e
    | Except.ok a =>
      match get_invoice_number t with
      | Except.error e => Except.error e
      | Except.ok inv =>
        match (numbersOf t).max? with
        | none => Except.error Err.valueError
        | some s =>
          match totalPure t with
          | none => Except.error Err.valueError
          | some tot =>
            match get_items_group t with
            | Except.error e => Except.error e
            | Except.ok items => Except.ok ⟨d, a, inv, s, tot, items⟩

/-- Stateful wrapper of `search_pattern`: reads `file` only. -/
def search_pattern_st (m : String → Option String) (r : RState) : Except Err String × RState :=
  (search_pattern m r.file, r)

/-- Stateful wrapper of `get_all_matches`: reads `file` only. -/
def get_all_matches_st (m : String → List String) (r : RState) : List String × RState :=
  (get_all_matches m r.file, r)

/-- Stateful wrapper of `get_date`. -/
def get_date_st (r : RState) : Except Err String × RState := (get_date r.file, r)

/-- Stateful wrapper of `get_address`. -/
def get_address_st (r : RState) : Except Err String × RState := (get_address r.file, r)

/-- Stateful wrapper of `get_invoice_number`. -/
def get_invoice_number_st (r : RState) : Except Err String × RState :=
  (get_invoice_number r.file, r)

/-- Stateful wrapper of `get_raw_sku_and_descriptions`. -/
def get_raw_sku_and_descriptions_st (r : RState) : List (String × String) × RState :=
  (get_raw_sku_and_descriptions r.file, r)

/-- Stateful wrapper of `get_raw_prices`. -/
def get_raw_prices_st (r : RState) : List (String × String) × RState :=
  (get_raw_prices r.file, r)

/-- Stateful wrapper of `get_items_group`. -/
def get_items_group_st (r : RState) : Except Err (List LineItem) × RState :=
  (get_items_group r.file, r)

/-! ## Helper lemmas -/

/-- The left fold of `max` over a `List Nat` is an element (or the seed) and
bounds the seed and every element. -/
theorem foldl_max_spec (l : List Nat) (a : Nat) :
    (l.foldl max a = a ∨ l.foldl max a ∈ l) ∧ a ≤ l.foldl max a ∧
      ∀ x ∈ l, x ≤ l.foldl max a := by
  induction l generalizing a with
  | nil => simp
  | cons b tl ih =>
    obtain ⟨h1, h2, h3⟩ := ih (max a b)
    have hfold : List.foldl max a (b :: tl) = List.foldl max (max a b) tl := rfl
    refine ⟨?_, ?_, ?_⟩
    · rw [hfold]
      rcases h1 with h | h
      · rcases max_choice a b with hm | hm
        · exact Or.inl (h.trans hm)
        · exact Or.inr (List.mem_cons.mpr (Or.inl (h.trans hm)))
      · exact Or.inr (List.mem_cons.mpr (Or.inr h))
    · rw [hfold]
      exact le_trans (le_max_left a b) h2
    · intro x hx
      rw [hfold]
      rcases List.mem_cons.mp hx with rfl | hx
      · exact le_trans (le_max_right a x) h2
      · exact h3 x hx

/-- `max` of a nonempty `List Nat` is a member and an upper bound. -/
theorem max?_spec (l : List Nat) (s : Nat) (h : l.max? = some s) :
    s ∈ l ∧ ∀ x ∈ l, x ≤ s := by
  cases l with
  | nil => simp [List.max?] at h
  | cons a tl =>
    have h' : List.foldl max a tl = s := by simpa [List.max?] using h
    subst h'
    obtain ⟨h1, h2, h3⟩ := foldl_max_spec tl a
    refine ⟨?_, ?_⟩
    · rcases h1 with h | h
      · rw [h]; exact List.mem_cons_self a tl
      · exact List.mem_cons_of_mem a h
    · intro x hx
      rcases List.mem_cons.mp hx with rfl | hx
      · exact h2
      · exact h3 x hx

/-- A parsed discount line is nonpositive. -/
theorem negValue_nonpos (l : String) (v : Int) (h : negValue? l = some v) : v ≤ 0 := by
  unfold negValue? at h
  split at h
  · cases hn : natOfDigits? l.data.dropLast with
    | none => rw [hn] at h; simp at h
    | some n =>
      rw [hn] at h
      have hv : -(n : Int) = v := Option.some.inj h
      omega
  · simp at h

/-- The sum of the parsed discount lines is nonpositive. -/
theorem filterMap_negValue_sum_nonpos (ls : List String) :
    (ls.filterMap negValue?).sum ≤ 0 := by
  induction ls with
  | nil => simp
  | cons a tl ih =>
    cases hv : negValue? a with
    | none => simpa [List.filterMap_cons, hv] using ih
    | some v =>
      have hvle := negValue_nonpos a v hv
      simp only [List.filterMap_cons, hv, List.sum_cons]
      omega

/-- The discount sum of any text is nonpositive. -/
theorem discounts_nonpos (t : String) : discountsOf t ≤ 0 :=
  filterMap_negValue_sum_nonpos (linesOf t)

/-- `get_subtotal` returns the maximum of `numbersOf` and stores that list
in the `numbers` attribute. -/
theorem subtotal_st_eq (r : RState) :
    get_subtotal_st r = ((numbersOf r.file).max?, ⟨r.file, some (numbersOf r.file)⟩) := rfl

/-- `get_total`'s value depends only on the text, and its final state always
holds the freshly recomputed `numbers` list. -/
theorem total_st_eq (r : RState) :
    get_total_st r = (totalPure r.file, ⟨r.file, some (numbersOf r.file)⟩) := by
  unfold get_total_st totalPure get_subtotal_st
  cases h : (numbersOf r.file).max? with
  | none => simp [h]
  | some s => simp only [h]; split <;> simp [h]

/-- The only error `search_pattern` can produce is `AttributeError`. -/
theorem search_pattern_error (m : String → Option String) (t : String) (e : Err)
    (h : search_pattern m t = Except.error e) : e = Err.attributeError := by
  unfold search_pattern at h
  cases hm : m t with
  | none => rw [hm] at h; exact (Except.error.inj h).symm
  | some s => rw [hm] at h; cases h

/-- The value `get_receipt_dictionary` produces depends only on the text. -/
theorem dict_val (r : RState) : (get_receipt_dictionary_st r).1 = dictPure r.file := by
  unfold get_receipt_dictionary_st dictPure
  cases hd : get_date r.file with
  | error e => simp
  | ok d =>
    cases ha : get_address r.file with
    | error e => simp
    | ok a =>
      cases hi : get_invoice_number r.file with
      | error e => simp
      | ok inv =>
        simp only [subtotal_st_eq, total_st_eq]
        cases hs : (numbersOf r.file).max? with
        | none => simp
        | some s =>
          cases ht : totalPure r.file with
          | none => simp
          | some tot =>
            cases hg : get_items_group r.file with
            | error e => simp
            | ok items => simp

/-- `get_receipt_dictionary` either leaves the state unchanged (an extractor
failed before `get_subtotal` ran) or has stored the recomputed `numbers`. -/
theorem dict_state (r : RState) :
    (get_receipt_dictionary_st r).2 = r ∨
      (get_receipt_dictionary_st r).2 = ⟨r.file, some (numbersOf r.file)⟩ := by
  unfold get_receipt_dictionary_st
  cases hd : get_date r.file with
  | error e => simp
  | ok d =>
    cases ha : get_address r.file with
    | error e => simp
    | ok a =>
      cases hi : get_invoice_number r.file with
      | error e => simp
      | ok inv =>
        simp only [subtotal_st_eq, total_st_eq]
        cases hs : (numbersOf r.file).max? with
        | none => simp
        | some s =>
          cases ht : totalPure r.file with
          | none => simp
          | some tot =>
            cases hg : get_items_group r.file with
            | error e => simp
            | ok items => simp

/-- `get_receipt_dictionary` never changes the `file` attribute. -/
theorem dict_file (r : RState) : (get_receipt_dictionary_st r).2.file = r.file := by
  rcases dict_state r with h | h <;> rw [h]

/-- Rows surviving the merge with an exhausted price list never pass the
four-field filter. -/
theorem mergeRows_nil_filter (ds : List (String × String)) :
    (mergeRows ds []).filter itemRowKeep = [] := by
  induction ds with
  | nil => rfl
  | cons d tl ih =>
    have hk : itemRowKeep [d.1, d.2] = false := rfl
    simp [mergeRows, List.filter_cons, hk, ih]

/-- The merge-then-filter of the source loop equals the positional zip with
the description filter of the specification. -/
theorem merge_filter_eq (ds : List (String × String)) : ∀ ps : List (String × String),
    (mergeRows ds ps).filter itemRowKeep =
      ((ds.zip ps).map rowOfPair).filter (fun x => x.getD 1 "" != "SUBTOTAL") := by
  induction ds with
  | nil => intro ps; rfl
  | cons d tl ih =>
    intro ps
    cases ps with
    | nil => simpa [mergeRows] using mergeRows_nil_filter (d :: tl)
    | cons p pt =>
      have hk : itemRowKeep [d.1, d.2, p.1, p.2] = (d.2 != "SUBTOTAL") := by
        simp [itemRowKeep]
      have hr : rowOfPair (d, p) = [d.1, d.2, p.1, p.2] := rfl
      simp only [mergeRows, List.zip_cons_cons, List.map_cons, List.filter_cons, hk, hr]
      have hg : ([d.1, d.2, p.1, p.2].getD 1 "" != "SUBTOTAL") = (d.2 != "SUBTOTAL") := rfl
      rw [hg, ih pt]

/-- `addrAux` finds the line immediately before the first later line that
starts with `VENDEDOR`. -/
theorem addrAux_spec : ∀ (ls : List String) (i : Nat) (li pr : String),
    0 < i → ls[i]? = some li → isPrefixCh "VENDEDOR".data li.data = true →
    (∀ j, 0 < j → j < i → isPrefixCh "VENDEDOR".data ((ls[j]?.getD "").data) = false) →
    ls[i - 1]? = some pr →
    addrAux ls = some pr := by
  intro ls
  induction ls with
  | nil => intro i li pr h1 h2 h3 h4 h5; simp at h2
  | cons a tl ih =>
    intro i li pr h1 h2 h3 h4 h5
    obtain ⟨i', rfl⟩ : ∃ i', i = i' + 1 := ⟨i - 1, by omega⟩
    cases tl with
    | nil => rw [List.getElem?_cons_succ] at h2; simp at h2
    | cons b rest =>
      rw [List.getElem?_cons_succ] at h2
      by_cases hb : isPrefixCh "VENDEDOR".data b.data = true
      · have hi : i' = 0 := by
          by_contra hne
          have hj := h4 1 (by omega) (by omega)
          rw [List.getElem?_cons_succ, List.getElem?_cons_zero] at hj
          simp only [Option.getD_some] at hj
          rw [hj] at hb
          cases hb
        subst hi
        simp only [Nat.add_sub_cancel, List.getElem?_cons_zero, Option.some.injEq] at h5
        subst h5
        simp [addrAux, hb]
      · have hi' : 0 < i' := by
          rcases Nat.eq_zero_or_pos i' with h0 | h0
          · subst h0
            rw [List.getElem?_cons_zero] at h2
            cases Option.some.inj h2
            exact absurd h3 (by simp [hb])
          · exact h0
        have step : addrAux (a :: b :: rest) = addrAux (b :: rest) := by
          simp [addrAux, hb]
        rw [step]
        apply ih i' li pr hi' h2 h3
        · intro j hj0 hji
          have hj := h4 (j + 1) (by omega) (by omega)
          rw [List.getElem?_cons_succ] at hj
          exact hj
        · have h5' : (a :: b :: rest)[i']? = some pr := by
            obtain ⟨i'', rfl⟩ : ∃ i'', i' = i'' + 1 := ⟨i' - 1, by omega⟩
            simpa using h5
          obtain ⟨i'', rfl⟩ : ∃ i'', i' = i'' + 1 := ⟨i' - 1, by omega⟩
          rw [List.getElem?_cons_succ] at h5'
          simpa using h5'

/-- A date search with no match makes `get_date` raise. -/
theorem get_date_none (t : String) (h : dateMatch t = none) :
    get_date t = Except.error Err.attributeError := by
  unfold get_date search_pattern
  rw [h]

/-- An address search with no match makes `get_address` raise. -/
theorem get_address_none (t : String) (h : addressMatch t = none) :
    get_address t = Except.error Err.attributeError := by
  unfold get_address search_pattern
  rw [h]
  rfl

/-- An invoice search with no match makes `get_invoice_number` raise. -/
theorem get_invoice_number_none (t : String) (h : invoiceMatch t = none) :
    get_invoice_number t = Except.error Err.attributeError := by
  unfold get_invoice_number search_pattern
  rw [h]

/-- The only error `get_address` can produce is `AttributeError`. -/
theorem get_address_error (t : String) (e : Err)
    (h : get_address t = Except.error e) : e = Err.attributeError := by
  unfold get_address at h
  cases hm : search_pattern addressMatch t with
  | error e' =>
    rw [hm] at h
    have he' := search_pattern_error addressMatch t e' hm
    subst he'
    exact (Except.error.inj h).symm
  | ok s => rw [hm] at h; cases h

/-- `totalPure` on a text with a subtotal: candidate if present, else the
subtotal. -/
theorem totalPure_eq (t : String) (s : Nat) (hs : (numbersOf t).max? = some s) :
    totalPure t =
      some (if ((s : Int) + discountsOf t) ∈ (numbersOf t).map (fun n => (n : Int))
        then (s : Int) + discountsOf t else (s : Int)) := by
  have hmatch : totalPure t =
      (if ((s : Int) + discountsOf t) ∈ (numbersOf t).map (fun n => (n : Int))
        then some ((s : Int) + discountsOf t) else some ((s : Int))) := by
    unfold totalPure
    rw [hs]
  rw [hmatch]
  split_ifs with hc <;> rfl

/-! ## Claim theorems -/

/-- C1 (counterexample): on the specification's own example text
`"123 Main St\nTEL:555\nVENDEDOR\n..."`, `get_address` does not return
`"123 Main St"`; the `.*` of the pattern cannot cross newlines, so the match
is the single line `"TEL:555"` before `VENDEDOR`, which truncates at `TEL:`
to the empty string. -/
theorem C1_claim_counterexample :
    get_address "123 Main St\nTEL:555\nVENDEDOR\n..." ≠ Except.ok "123 Main St" ∧
    get_address "123 Main St\nTEL:555\nVENDEDOR\n..." = Except.ok "" := by
  constructor
  · decide
  · decide

/-- C1 (amended): `get_address` returns the single line immediately
preceding the first later line that starts with `VENDEDOR`, truncated at
the first occurrence of `TEL:` and trimmed of surrounding whitespace — not
everything from the start of the text. -/
theorem C1_address_amended (t : String) (i : Nat) (li pr : String)
    (h1 : 0 < i) (h2 : (linesOf t)[i]? = some li)
    (h3 : isPrefixCh "VENDEDOR".data li.data = true)
    (h4 : ∀ j, 0 < j → j < i →
      isPrefixCh "VENDEDOR".data (((linesOf t)[j]?.getD "").data) = false)
    (h5 : (linesOf t)[i - 1]? = some pr) :
    get_address t = Except.ok (String.mk (pyStrip (takeBefore "TEL:".data pr.data))) := by
  have hm : addressMatch t = some pr := addrAux_spec (linesOf t) i li pr h1 h2 h3 h4 h5
  unfold get_address search_pattern
  rw [hm]
  rfl

/-- C1 (witness): the amended statement evaluated on the example text. -/
theorem C1_address_amended_witness :
    get_address "123 Main St\nTEL:555\nVENDEDOR\n..." =
      Except.ok (String.mk (pyStrip (takeBefore "TEL:".data "TEL:555".data))) := by
  apply C1_address_amended "123 Main St\nTEL:555\nVENDEDOR\n..." 2 "VENDEDOR" "TEL:555"
  · decide
  · decide
  · decide
  · intro j hj0 hj2
    interval_cases j
    decide
  · decide

/-- C2: with a defined subtotal `s`, `get_total` adds the nonpositive
discount sum to `s` and returns the candidate exactly when it occurs among
the freestanding integers, the subtotal otherwise. -/
theorem C2_total_consistency_check (t : String) (n0 : Option (List Nat)) (s : Nat)
    (h : (get_subtotal_st ⟨t, n0⟩).1 = some s) :
    discountsOf t ≤ 0 ∧
    (get_total_st ⟨t, n0⟩).1 =
      some (if ((s : Int) + discountsOf t) ∈ (numbersOf t).map (fun n => (n : Int))
        then (s : Int) + discountsOf t else (s : Int)) := by
  have hs : (numbersOf t).max? = some s := h
  refine ⟨discounts_nonpos t, ?_⟩
  rw [total_st_eq]
  exact totalPure_eq t s hs

/-- C2 (witness): the two halves of the specification's example, with
freestanding integers `{100, 15, 85}` resp. `{100, 15}` and the discount
line `15-`. -/
theorem C2_total_consistency_check_witness :
    (get_subtotal_st ⟨"100\n15-\n15\n85", none⟩).1 = some 100 ∧
    (get_total_st ⟨"100\n15-\n15\n85", none⟩).1 = some 85 ∧
    (get_subtotal_st ⟨"100\n15-\n15", none⟩).1 = some 100 ∧
    (get_total_st ⟨"100\n15-\n15", none⟩).1 = some 100 := by
  refine ⟨by decide, ?_, by decide, ?_⟩
  · rw [(C2_total_consistency_check "100\n15-\n15\n85" none 100 (by decide)).2]
    decide
  · rw [(C2_total_consistency_check "100\n15-\n15" none 100 (by decide)).2]
    decide

/-- C3: `get_items_group` equals the positional zip up to the shorter
length, filtered on descriptions other than `SUBTOTAL`, with `sku` and
`total` coerced to integers; in particular the specification's example
yields exactly one item and drops the SUBTOTAL-paired entry. -/
theorem C3_items_zip_filter :
    (∀ descs prices : List (String × String),
      get_items_group_lists descs prices = buildLineItemsSpec descs prices) ∧
    get_items_group_lists [("1234567890123", "WIDGET"), ("", "SUBTOTAL")]
        [("500", "A"), ("1000", "")] =
      Except.ok [⟨1234567890123, "WIDGET", 500, "A"⟩] := by
  constructor
  · intro descs prices
    unfold get_items_group_lists buildLineItemsSpec
    rw [merge_filter_eq]
  · decide

/-- C4: a pattern with no match makes `search_pattern` fail with
`AttributeError` (never the empty string), and a failing date, address or
invoice search aborts `get_receipt_dictionary` with that error. -/
theorem C4_notfound_aborts (m : String → Option String) (t : String)
    (n0 : Option (List Nat)) :
    (m t = none →
      search_pattern m t = Except.error Err.attributeError ∧
        search_pattern m t ≠ Except.ok "") ∧
    (dateMatch t = none ∨ addressMatch t = none ∨ invoiceMatch t = none →
      (get_receipt_dictionary_st ⟨t, n0⟩).1 = Except.error Err.attributeError) := by
  constructor
  · intro hm
    unfold search_pattern
    rw [hm]
    exact ⟨rfl, by intro h; cases h⟩
  · intro h
    have hv : (get_receipt_dictionary_st ⟨t, n0⟩).1 = dictPure t := dict_val _
    rw [hv]
    unfold dictPure
    rcases h with h | h | h
    · rw [get_date_none t h]
    · cases hd : get_date t with
      | error e => rw [search_pattern_error dateMatch t e hd]
      | ok d => rw [get_address_none t h]
    · cases hd : get_date t with
      | error e => rw [search_pattern_error dateMatch t e hd]
      | ok d =>
        cases ha : get_address t with
        | error e => rw [get_address_error t e ha]
        | ok a => rw [get_invoice_number_none t h]

/-- C4 (witness): a text without any of the three required patterns. -/
theorem C4_notfound_aborts_witness :
    (search_pattern (fun _ => none) "no date here" = Except.error Err.attributeError ∧
      search_pattern (fun _ => none) "no date here" ≠ Except.ok "") ∧
    (get_receipt_dictionary_st ⟨"no date here", none⟩).1 =
      Except.error Err.attributeError :=
  ⟨(C4_notfound_aborts (fun _ => none) "no date here" none).1 rfl,
    (C4_notfound_aborts (fun _ => none) "no date here" none).2 (Or.inl (by decide))⟩

/-- C5: `get_subtotal` returns a member of the freestanding-integer list
that bounds every member: its maximum. -/
theorem C5_subtotal_is_max (t : String) (n0 : Option (List Nat)) (s x : Nat)
    (h : (get_subtotal_st ⟨t, n0⟩).1 = some s) :
    s ∈ numbersOf t ∧ (x ∈ numbersOf t → x ≤ s) := by
  have hs : (numbersOf t).max? = some s := h
  obtain ⟨h1, h2⟩ := max?_spec (numbersOf t) s hs
  exact ⟨h1, fun hx => h2 x hx⟩

/-- C5 (witness): on freestanding-integer lines `10`, `25`, `7` the
subtotal is `25`. -/
theorem C5_subtotal_is_max_witness :
    (get_subtotal_st ⟨"10\n25\n7", none⟩).1 = some 25 ∧
    (25 ∈ numbersOf "10\n25\n7" ∧ (10 ∈ numbersOf "10\n25\n7" → 10 ≤ 25)) :=
  ⟨by decide, C5_subtotal_is_max "10\n25\n7" none 25 10 (by decide)⟩

/-- C6: if either raw token scan is empty, `get_items_group` returns the
empty item list rather than an error. -/
theorem C6_empty_scan_gives_no_items (t : String)
    (h : get_raw_sku_and_descriptions t = [] ∨ get_raw_prices t = []) :
    get_items_group t = Except.ok [] := by
  unfold get_items_group get_items_group_lists
  rcases h with h | h
  · rw [h]
    rfl
  · rw [h, mergeRows_nil_filter]
    rfl

/-- C6 (witness): a text in which both scans are empty. -/
theorem C6_empty_scan_gives_no_items_witness :
    get_raw_sku_and_descriptions "no items" = [] ∧
    get_items_group "no items" = Except.ok [] :=
  ⟨by decide, C6_empty_scan_gives_no_items "no items" (Or.inl (by decide))⟩

/-- C7: `get_total` is call-order independent — whatever the prior value of
the `numbers` attribute (unset, or left by an earlier `get_subtotal`), its
result is the pure function `totalPure` of the text, whose membership check
uses exactly the list `numbersOf` that `get_subtotal` derives; afterwards
the state holds that recomputed list. -/
theorem C7_total_call_order_independent (t : String) (n0 : Option (List Nat)) :
    (get_total_st ⟨t, n0⟩).1 = (get_total_st ((get_subtotal_st ⟨t, none⟩).2)).1 ∧
    (get_total_st ⟨t, n0⟩).1 = totalPure t ∧
    (get_subtotal_st ⟨t, n0⟩).2.numbers = some (numbersOf t) ∧
    (get_total_st ⟨t, n0⟩).2 = ⟨t, some (numbersOf t)⟩ := by
  refine ⟨?_, ?_, rfl, ?_⟩
  · rw [total_st_eq, total_st_eq]
    rfl
  · rw [total_st_eq]
  · rw [total_st_eq]

/-- C8: `get_receipt_dictionary` is deterministic and idempotent — run on
the state a first run leaves behind, it produces the identical record. -/
theorem C8_dictionary_idempotent (r : RState) :
    (get_receipt_dictionary_st ((get_receipt_dictionary_st r).2)).1 =
      (get_receipt_dictionary_st r).1 := by
  rw [dict_val, dict_val, dict_file]

/-- C9: whenever both succeed, the total is at most the subtotal. -/
theorem C9_total_le_subtotal (t : String) (n0 : Option (List Nat)) (s : Nat) (tot : Int)
    (hs : (get_subtotal_st ⟨t, n0⟩).1 = some s)
    (ht : (get_total_st ⟨t, n0⟩).1 = some tot) :
    tot ≤ (s : Int) := by
  have hs' : (numbersOf t).max? = some s := hs
  rw [total_st_eq] at ht
  have ht' : totalPure t = some tot := ht
  rw [totalPure_eq t s hs'] at ht'
  have hd := discounts_nonpos t
  have htot := Option.some.inj ht'
  split_ifs at htot <;> omega

/-- C9 (witness): subtotal `100`, total `85` on the discount example. -/
theorem C9_total_le_subtotal_witness :
    (get_subtotal_st ⟨"100\n15-\n15\n85\n", none⟩).1 = some 100 ∧
    (get_total_st ⟨"100\n15-\n15\n85\n", none⟩).1 = some 85 ∧
    (85 : Int) ≤ (100 : Nat) :=
  ⟨by decide, by decide,
    C9_total_le_subtotal "100\n15-\n15\n85\n" none 100 85 (by decide) (by decide)⟩

/-- C10: every extraction reads the immutable `file` attribute and never
changes it; the only attribute ever written is `numbers`, and only with the
list recomputed from the text by `get_subtotal` (directly or via
`get_total` and `get_receipt_dictionary`). -/
theorem C10_extractions_preserve_file (m : String → Option String)
    (ml : String → List String) (r : RState) :
    (search_pattern_st m r).2 = r ∧
    (get_all_matches_st ml r).2 = r ∧
    (get_date_st r).2 = r ∧
    (get_address_st r).2 = r ∧
    (get_invoice_number_st r).2 = r ∧
    (get_raw_sku_and_descriptions_st r).2 = r ∧
    (get_raw_prices_st r).2 = r ∧
    (get_items_group_st r).2 = r ∧
    (get_subtotal_st r).2 = { r with numbers := some (numbersOf r.file) } ∧
    (get_subtotal_st r).2.file = r.file ∧
    (get_total_st r).2 = { r with numbers := some (numbersOf r.file) } ∧
    (get_receipt_dictionary_st r).2.file = r.file ∧
    ((get_receipt_dictionary_st r).2 = r ∨
      (get_receipt_dictionary_st r).2 = { r with numbers := some (numbersOf r.file) }) := by
  refine ⟨rfl, rfl, rfl, rfl, rfl, rfl, rfl, rfl, rfl, rfl, ?_, dict_file r, dict_state r⟩
  rw [total_st_eq]
